import Mathlib

/-!
Verification of the pivot-table engine (`src/pivot.ts`).

The engine is a single pure function `createPivotTable(data, config)` with
three helpers `getUniqueValues`, `matchesGroup`, `aggregateValues`.  We give a
shallow embedding of these four functions and prove the specified properties.

Modelling conventions:
* A record (`PivotData`) is an association list from field name to a scalar
  value (string or number); JavaScript property access `item[field]` becomes
  `getField`, returning `none` for an absent field (JS `undefined`).
* JavaScript numbers are modelled exactly: finite values are rationals (`ℚ`),
  and the special values `Infinity`, `-Infinity` and `NaN` are explicit
  constructors of the carrier `JSNum`; arithmetic is exact rather than
  IEEE-754 rounded.  The arithmetic on `ℚ` is spelled with the kernel-friendly
  helpers `ratAdd`, `ratDivNat`, `ratNeg`, `ratMin`, `ratMax` built on
  `mkRat`; each is proved equal to the corresponding Mathlib operation.
* String comparison (the default JS `.sort()` comparator) is the
  code-unit-wise lexicographic order, embodied by the Boolean comparators
  `strLe` / `strLt` on the character lists of the strings.
* The ECMAScript `Array.prototype.join` stringifies `undefined` elements to
  the EMPTY string, which `jsJoin` reproduces.
* The coercion `parseFloat(x) || 0` is modelled by `toNumber`: a number value
  is kept, a string is parsed as an optional sign followed by a decimal
  significand (no exponent), and anything unparseable — including an absent
  field — falls back to `0`, exactly as `NaN || 0` evaluates to `0`.
* The JS `Set` + `Array.from` + `.sort()` pipeline of `getUniqueValues` is
  modelled by `dedup` followed by insertion sort under `strLe`: after
  deduplication all keys are distinct, so any sorting algorithm yields the
  same strictly ascending list the JS default comparator produces.
-/

/-! ### Exact rational arithmetic helpers (kernel-computable) -/

/-- Rational addition, written with `mkRat` so the kernel can evaluate it;
equal to `· + ·` on `ℚ` (see `ratAdd_eq_add`). -/
def ratAdd (a b : ℚ) : ℚ := mkRat (a.num * b.den + b.num * a.den) (a.den * b.den)

/-- The rational `n / 1`; equal to the cast `(n : ℚ)`. -/
def ratOfNat (n : ℕ) : ℚ := mkRat n 1

/-- Division of a rational by a natural number; equal to `q / (n : ℚ)`. -/
def ratDivNat (q : ℚ) (n : ℕ) : ℚ := mkRat q.num (q.den * n)

/-- Rational negation via `mkRat`; equal to `-q`. -/
def ratNeg (q : ℚ) : ℚ := mkRat (-q.num) q.den

/-- Boolean `a ≤ b` on `ℚ` by cross multiplication. -/
def ratLeB (a b : ℚ) : Bool := a.num * b.den ≤ b.num * a.den

/-- Binary minimum on `ℚ`; equal to `min`. -/
def ratMin (a b : ℚ) : ℚ := if ratLeB a b then a else b

/-- Binary maximum on `ℚ`; equal to `max`.  Like `Math.max(x, y)` it returns
`y` when `y ≥ x` and `x` otherwise. -/
def ratMax (a b : ℚ) : ℚ := if ratLeB a b then b else a

/-! ### Lexicographic string comparison (the JS default sort comparator) -/

/-- Lexicographic non-strict comparison of character lists. -/
def charListLe : List Char → List Char → Bool
  | [], _ => true
  | _ :: _, [] => false
  | a :: as, b :: bs =>
      if a < b then true
      else if b < a then false
      else charListLe as bs

/-- Lexicographic strict comparison of character lists. -/
def charListLt : List Char → List Char → Bool
  | [], [] => false
  | [], _ :: _ => true
  | _ :: _, [] => false
  | a :: as, b :: bs =>
      if a < b then true
      else if b < a then false
      else charListLt as bs

/-- The JS default string comparator, non-strict: code-unit lexicographic. -/
def strLe (a b : String) : Bool := charListLe a.data b.data

/-- The JS default string comparator, strict. -/
def strLt (a b : String) : Bool := charListLt a.data b.data

/-! ### The data model of `src/pivot.ts` -/

/-- A scalar field value of a record: a string or a (finite) number. -/
inductive Value where
  | str : String → Value
  | num : ℚ → Value
deriving DecidableEq, Repr

/-- A record (the `PivotData` interface): field-name/value pairs, accessed by
name. -/
abbrev PivotData := List (String × Value)

/-- JS property access `item[field]`: `none` models `undefined` (absent field). -/
def getField (item : PivotData) (field : String) : Option Value :=
  (item.find? (fun p => p.1 == field)).map (fun p => p.2)

/-- The `PivotConfig` interface with its optional `aggregation` string. -/
structure PivotConfig where
  rows : List String
  columns : List String
  values : List String
  aggregation : Option String
deriving DecidableEq, Repr

/-- A JavaScript number: finite rational, the two infinities, or NaN. -/
inductive JSNum where
  | fin : ℚ → JSNum
  | posInf : JSNum
  | negInf : JSNum
  | nan : JSNum
deriving DecidableEq, Repr

/-- The `PivotResult` interface. -/
structure PivotResult where
  data : List (List JSNum)
  rowHeaders : List String
  columnHeaders : List String
deriving DecidableEq, Repr

/-- String form of a numeric field value (deterministic stand-in for the JS
number-to-string conversion; integers print like JS, e.g. `5`, `-3`). -/
def ratToString (q : ℚ) : String :=
  if q.den = 1 then toString q.num else toString q.num ++ "/" ++ toString q.den

/-- JS `String(v)` for a present field value. -/
def valueToString : Value → String
  | .str s => s
  | .num q => ratToString q

/-- How `Array.prototype.join` stringifies one element: `undefined` (and
`null`) become the empty string, any other value its string conversion. -/
def joinElem : Option Value → String
  | none => ""
  | some v => valueToString v

/-- JS `elements.join(sep)` on an array of possibly-undefined values. -/
def jsJoin (sep : String) : List (Option Value) → String
  | [] => ""
  | [x] => joinElem x
  | x :: xs => joinElem x ++ sep ++ jsJoin sep xs

/-- The group key of a record for one axis:
`fields.map(field => item[field]).join(' - ')`. -/
def groupKey (item : PivotData) (fields : List String) : String :=
  jsJoin " - " (fields.map (fun field => getField item field))

/-- `matchesGroup(item, fields, groupValue)` from `src/pivot.ts`. -/
def matchesGroup (item : PivotData) (fields : List String) (groupValue : String) : Bool :=
  groupKey item fields == groupValue

/-- `getUniqueValues(data, fields)` from `src/pivot.ts`: collect every
record's group key into a `Set`, then sort the distinct keys ascending with
the default string comparator. -/
def getUniqueValues (data : List PivotData) (fields : List String) : List String :=
  List.insertionSort (fun a b => strLe a b = true)
    ((data.map (fun item => groupKey item fields)).dedup)

/-! ### Numeric coercion: `parseFloat(item[field]) || 0` -/

/-- Digit list to natural number, most significant first. -/
def digitsToNat (cs : List Char) : Nat :=
  cs.foldl (fun acc c => acc * 10 + (c.toNat - Char.toNat '0')) 0

/-- Split a character list into its leading run of decimal digits and the
rest. -/
def takeDigits (cs : List Char) : List Char × List Char :=
  (cs.takeWhile (fun c => c.isDigit), cs.dropWhile (fun c => c.isDigit))

/-- Parse an unsigned decimal significand `digits[.digits]`; `none` when no
digit is present (the `NaN` outcome of `parseFloat`). -/
def parseUnsigned (cs : List Char) : Option ℚ :=
  let p := takeDigits cs
  match p.2 with
  | '.' :: rest =>
      let f := takeDigits rest
      if p.1.isEmpty && f.1.isEmpty then none
      else some (ratAdd (ratOfNat (digitsToNat p.1)) (mkRat (digitsToNat f.1) (10 ^ f.1.length)))
  | _ => if p.1.isEmpty then none else some (ratOfNat (digitsToNat p.1))

/-- JS `parseFloat` on a string: skip leading spaces, optional sign, decimal
significand; `none` models the `NaN` result. -/
def jsParseFloat (s : String) : Option ℚ :=
  match s.data.dropWhile (fun c => c = ' ') with
  | '-' :: rest => (parseUnsigned rest).map (fun q => ratNeg q)
  | '+' :: rest => parseUnsigned rest
  | cs => parseUnsigned cs

/-- The coercion `parseFloat(item[field]) || 0`: numeric values pass through,
strings are parsed, everything unparseable (including an absent field, whose
`parseFloat` is `NaN`) coerces to `0`. -/
def toNumber : Option Value → ℚ
  | none => 0
  | some (.num q) => q
  | some (.str s) => (jsParseFloat s).getD 0

/-! ### Aggregation -/

/-- Left-to-right `values.reduce((sum, val) => sum + val, 0)`. -/
def listSum (l : List ℚ) : ℚ := l.foldl (fun sum val => ratAdd sum val) (ratOfNat 0)

/-- The `avg` reduction `sum / values.length`: a genuine division except that
`0 / 0` is NaN, matching the JS float division the code performs when the
value list is empty (the sum of an empty list being `0`). -/
def jsAvg (l : List ℚ) : JSNum :=
  if l.length = 0 then .nan else .fin (ratDivNat (listSum l) l.length)

/-- `Math.min(...values)`: `Infinity` on the empty list. -/
def jsMinList : List ℚ → JSNum
  | [] => .posInf
  | x :: xs => .fin (xs.foldl ratMin x)

/-- `Math.max(...values)`: `-Infinity` on the empty list. -/
def jsMaxList : List ℚ → JSNum
  | [] => .negInf
  | x :: xs => .fin (xs.foldl ratMax x)

/-- The flat value list `data.flatMap(item => valueFields.map(field =>
parseFloat(item[field]) || 0))` (record-major, field-minor). -/
def valueList (data : List PivotData) (valueFields : List String) : List ℚ :=
  data.flatMap (fun item => valueFields.map (fun field => toNumber (getField item field)))

/-- `aggregateValues(data, valueFields, aggregation)` from `src/pivot.ts`:
the empty-subset short-circuit to `0`, then the `switch` on the aggregation
string whose `default` branch is the sum reduction. -/
def aggregateValues (data : List PivotData) (valueFields : List String)
    (aggregation : String) : JSNum :=
  if data.length = 0 then .fin 0
  else
    let values := valueList data valueFields
    if aggregation = "sum" then .fin (listSum values)
    else if aggregation = "count" then .fin (ratOfNat values.length)
    else if aggregation = "avg" then jsAvg values
    else if aggregation = "min" then jsMinList values
    else if aggregation = "max" then jsMaxList values
    else .fin (listSum values)

/-- `createPivotTable(data, config)` from `src/pivot.ts`.  The nested
`for`/`push` loops building `pivotData` are expressed as nested maps over the
row and column headers. -/
def createPivotTable (data : List PivotData) (config : PivotConfig) : PivotResult :=
  let aggregation := config.aggregation.getD "sum"
  if data.length = 0 then
    ⟨[], [], []⟩
  else
    let rowHeaders := getUniqueValues data config.rows
    let columnHeaders := getUniqueValues data config.columns
    let pivotData := rowHeaders.map (fun rh =>
      columnHeaders.map (fun ch =>
        aggregateValues
          (data.filter (fun item =>
            matchesGroup item config.rows rh && matchesGroup item config.columns ch))
          config.values aggregation))
    ⟨pivotData, rowHeaders, columnHeaders⟩

/-! ### Statement-side definitions (worded from the specification's claims) -/

/-- Addition of JS numbers (needed to state summations over matrix cells):
NaN absorbs, `Infinity + -Infinity` is NaN, either infinity otherwise
propagates, and finite values add exactly. -/
def JSNum.add : JSNum → JSNum → JSNum
  | nan, _ => nan
  | _, nan => nan
  | posInf, negInf => nan
  | negInf, posInf => nan
  | posInf, _ => posInf
  | _, posInf => posInf
  | negInf, _ => negInf
  | _, negInf => negInf
  | fin a, fin b => fin (ratAdd a b)

/-- Left-to-right sum of a list of JS numbers, starting from `0`. -/
def jsNumListSum (l : List JSNum) : JSNum := l.foldl JSNum.add (.fin 0)

/-- The cell `matrix[i][j]` of a pivot result, as an optional value. -/
def cellAt (r : PivotResult) (i j : ℕ) : Option JSNum :=
  r.data[i]?.bind (fun row => row[j]?)

/-- The value list described by the specification for the cell `(rh, ch)`:
every record whose row group key equals `rh` and whose column group key
equals `ch` (in input order), each mapped through every field of
`config.values` (record-major, field-minor) to its numeric coercion. -/
def specValueList (data : List PivotData) (config : PivotConfig) (rh ch : String) : List ℚ :=
  (data.filter (fun item =>
      groupKey item config.rows == rh && groupKey item config.columns == ch)).flatMap
    (fun item => config.values.map (fun field => toNumber (getField item field)))

/-- The aggregation reduction exactly as the specification words it: `sum` is
the arithmetic sum, `count` the length of the value list, `avg` the sum
divided by the count (division by a zero count being the NaN outcome of the
code's floating-point division), `min`/`max` the minimum/maximum of the value
list (over an empty list: the `Infinity`/`-Infinity` sentinels of
`Math.min()`/`Math.max()`, which the specification's §4 also names).  The
specification enumerates exactly five kinds, so the fallthrough value is
arbitrary (`0`). -/
def specAgg (aggregation : String) (l : List ℚ) : JSNum :=
  if aggregation = "sum" then .fin l.sum
  else if aggregation = "count" then .fin (l.length : ℚ)
  else if aggregation = "avg" then
    (if l.length = 0 then .nan else .fin (l.sum / (l.length : ℚ)))
  else if aggregation = "min" then
    (match l.min? with
     | none => .posInf
     | some q => .fin q)
  else if aggregation = "max" then
    (match l.max? with
     | none => .negInf
     | some q => .fin q)
  else .fin 0

/-! ### Sample inputs used by the witnesses -/

/-- The records of the specification's Example 1. -/
def exRecords : List PivotData :=
  [[("s", .str "A"), ("o", .str "X"), ("b", .num 10)],
   [("s", .str "A"), ("o", .str "Y"), ("b", .num 20)],
   [("s", .str "B"), ("o", .str "X"), ("b", .num 5)]]

/-- Two records that share no row/column cell, so the off-diagonal cells
have an empty filtered subset. -/
def exSparse : List PivotData :=
  [[("s", .str "A"), ("o", .str "X"), ("b", .num 1)],
   [("s", .str "B"), ("o", .str "Y"), ("b", .num 2)]]

/-- The Example 1 configuration with a given aggregation string. -/
def exConfig (agg : Option String) : PivotConfig := ⟨["s"], ["o"], ["b"], agg⟩

example :
    createPivotTable
      [[("s", .str "A"), ("o", .str "X"), ("b", .num 10)],
       [("s", .str "A"), ("o", .str "Y"), ("b", .num 20)],
       [("s", .str "B"), ("o", .str "X"), ("b", .num 5)]]
      ⟨["s"], ["o"], ["b"], some "sum"⟩ =
    ⟨[[.fin 10, .fin 20], [.fin 5, .fin 0]], ["A", "B"], ["X", "Y"]⟩ := by decide

example :
    createPivotTable
      [[("s", .str "A"), ("o", .str "X"), ("b", .num 10)],
       [("s", .str "A"), ("o", .str "Y"), ("b", .num 20)],
       [("s", .str "B"), ("o", .str "X"), ("b", .num 5)]]
      ⟨["s"], ["o"], ["b"], some "count"⟩ =
    ⟨[[.fin 1, .fin 1], [.fin 1, .fin 0]], ["A", "B"], ["X", "Y"]⟩ := by decide

example :
    createPivotTable
      [[("s", .str "A"), ("b", .str "n/a")], [("s", .str "A"), ("b", .num 3)]]
      ⟨["s"], ["s"], ["b"], some "avg"⟩ =
    ⟨[[.fin (mkRat 3 2)]], ["A"], ["A"]⟩ := by decide

example : groupKey [("s", .str "A"), ("o", .str "X")] ["s", "o"] = "A - X" := by decide

example : groupKey [("a", .str "x")] ["b"] = "" := by decide

/-! ### Bridges between the kernel-computable arithmetic and Mathlib's `ℚ` -/

theorem ratAdd_eq_add (a b : ℚ) : ratAdd a b = a + b := by
  rw [ratAdd, Rat.add_def, Rat.normalize_eq_mkRat]

theorem ratOfNat_eq_cast (n : ℕ) : ratOfNat n = (n : ℚ) := by
  rw [ratOfNat, Rat.mkRat_eq_div]
  simp

theorem ratDivNat_eq_div (q : ℚ) (n : ℕ) : ratDivNat q n = q / (n : ℚ) := by
  rw [ratDivNat, Rat.mkRat_eq_div]
  push_cast
  rw [← div_div, Rat.num_div_den]

theorem ratLeB_iff (a b : ℚ) : ratLeB a b = true ↔ a ≤ b := by
  rw [ratLeB, decide_eq_true_iff]
  exact Rat.le_def.symm

theorem ratMin_eq_min (a b : ℚ) : ratMin a b = min a b := by
  rw [ratMin, min_def]
  by_cases h : a ≤ b
  · rw [if_pos ((ratLeB_iff a b).mpr h), if_pos h]
  · rw [if_neg (fun hc => h ((ratLeB_iff a b).mp hc)), if_neg h]

theorem ratMax_eq_max (a b : ℚ) : ratMax a b = max a b := by
  rw [ratMax, max_def]
  by_cases h : a ≤ b
  · rw [if_pos ((ratLeB_iff a b).mpr h), if_pos h]
  · rw [if_neg (fun hc => h ((ratLeB_iff a b).mp hc)), if_neg h]

theorem listSum_eq_sum (l : List ℚ) : listSum l = l.sum := by
  rw [listSum, ratOfNat_eq_cast]
  simp only [ratAdd_eq_add]
  rw [List.sum_eq_foldl]
  norm_num

/-! ### Order facts about the string comparators -/

theorem charListLe_total : ∀ as bs, charListLe as bs = true ∨ charListLe bs as = true
  | [], _ => Or.inl rfl
  | _ :: _, [] => Or.inr rfl
  | a :: as, b :: bs => by
      simp only [charListLe]
      rcases lt_trichotomy a b with h | h | h
      · exact Or.inl (by simp [h])
      · subst h
        simpa [lt_self_iff_false] using charListLe_total as bs
      · exact Or.inr (by simp [h])

theorem charListLe_trans : ∀ as bs cs, charListLe as bs = true →
    charListLe bs cs = true → charListLe as cs = true
  | [], _, _, _, _ => rfl
  | _ :: _, [], _, h1, _ => by simp [charListLe] at h1
  | _ :: _, _ :: _, [], _, h2 => by simp [charListLe] at h2
  | a :: as, b :: bs, c :: cs, h1, h2 => by
      simp only [charListLe] at h1 h2 ⊢
      rcases lt_trichotomy a b with hab | hab | hab
      · rcases lt_trichotomy b c with hbc | hbc | hbc
        · simp [lt_trans hab hbc]
        · subst hbc; simp [hab]
        · rw [if_neg (lt_asymm hbc), if_pos hbc] at h2
          exact absurd h2 (by simp)
      · subst hab
        rcases lt_trichotomy a c with hac | hac | hac
        · simp [hac]
        · subst hac
          rw [if_neg (lt_irrefl a), if_neg (lt_irrefl a)] at h1 h2 ⊢
          exact charListLe_trans as bs cs h1 h2
        · rw [if_neg (lt_asymm hac), if_pos hac] at h2
          exact absurd h2 (by simp)
      · rw [if_neg (lt_asymm hab), if_pos hab] at h1
        exact absurd h1 (by simp)

theorem charListLt_of_le_ne : ∀ as bs, charListLe as bs = true → as ≠ bs →
    charListLt as bs = true
  | [], [], _, hne => absurd rfl hne
  | [], _ :: _, _, _ => rfl
  | _ :: _, [], h, _ => by simp [charListLe] at h
  | a :: as, b :: bs, h, hne => by
      simp only [charListLe] at h
      simp only [charListLt]
      rcases lt_trichotomy a b with hab | hab | hab
      · simp [hab]
      · subst hab
        rw [if_neg (lt_irrefl a), if_neg (lt_irrefl a)] at h ⊢
        exact charListLt_of_le_ne as bs h (fun e => hne (by rw [e]))
      · rw [if_neg (lt_asymm hab), if_pos hab] at h
        exact absurd h (by simp)

theorem string_data_inj (a b : String) (h : a.data = b.data) : a = b := by
  cases a
  cases b
  exact congrArg String.mk h

theorem strLt_of_le_ne (a b : String) (h : strLe a b = true) (hne : a ≠ b) :
    strLt a b = true :=
  charListLt_of_le_ne a.data b.data h (fun e => hne (string_data_inj a b e))

instance : IsTotal String (fun a b => strLe a b = true) :=
  ⟨fun a b => charListLe_total a.data b.data⟩

instance : IsTrans String (fun a b => strLe a b = true) :=
  ⟨fun a b c h1 h2 => charListLe_trans a.data b.data c.data h1 h2⟩

/-! ### Structural facts about `getUniqueValues` and `createPivotTable` -/

theorem getUniqueValues_sorted (data : List PivotData) (fields : List String) :
    (getUniqueValues data fields).Pairwise (fun a b => strLe a b = true) :=
  List.sorted_insertionSort _ _

theorem getUniqueValues_nodup (data : List PivotData) (fields : List String) :
    (getUniqueValues data fields).Nodup :=
  (List.perm_insertionSort _ _).symm.nodup (List.nodup_dedup _)

theorem getUniqueValues_pairwise_lt (data : List PivotData) (fields : List String) :
    (getUniqueValues data fields).Pairwise (fun a b => strLt a b = true) := by
  have hle := getUniqueValues_sorted data fields
  have hne : (getUniqueValues data fields).Pairwise (fun a b => a ≠ b) :=
    getUniqueValues_nodup data fields
  exact (hle.and hne).imp (fun h => strLt_of_le_ne _ _ h.1 h.2)

theorem mem_getUniqueValues {item : PivotData} {data : List PivotData} (fields : List String)
    (h : item ∈ data) : groupKey item fields ∈ getUniqueValues data fields := by
  unfold getUniqueValues
  rw [(List.perm_insertionSort _ _).mem_iff, List.mem_dedup]
  exact List.mem_map_of_mem _ h

theorem createPivotTable_nil (config : PivotConfig) :
    createPivotTable [] config = ⟨[], [], []⟩ := rfl

theorem createPivotTable_eq (data : List PivotData) (config : PivotConfig) (h : data ≠ []) :
    createPivotTable data config =
      ⟨(getUniqueValues data config.rows).map (fun rh =>
          (getUniqueValues data config.columns).map (fun ch =>
            aggregateValues
              (data.filter (fun item =>
                matchesGroup item config.rows rh && matchesGroup item config.columns ch))
              config.values (config.aggregation.getD "sum"))),
        getUniqueValues data config.rows, getUniqueValues data config.columns⟩ := by
  unfold createPivotTable
  rw [if_neg]
  simpa using h

theorem aggregateValues_eq_specAgg (data : List PivotData) (valueFields : List String)
    (agg : String) (hd : data ≠ [])
    (ha : agg ∈ (["sum", "count", "avg", "min", "max"] : List String)) :
    aggregateValues data valueFields agg = specAgg agg (valueList data valueFields) := by
  have hlen : ¬data.length = 0 := by simpa using hd
  have hmin : ratMin = fun a b => min a b := funext fun a => funext fun b => ratMin_eq_min a b
  have hmax : ratMax = fun a b => max a b := funext fun a => funext fun b => ratMax_eq_max a b
  simp only [List.mem_cons, List.not_mem_nil, or_false] at ha
  rcases ha with h | h | h | h | h
  all_goals subst h
  · simp [aggregateValues, specAgg, hlen, listSum_eq_sum]
  · simp [aggregateValues, specAgg, hlen, ratOfNat_eq_cast]
  · simp only [aggregateValues, specAgg, hlen, if_false, if_true, ite_false, ite_true]
    norm_num [jsAvg]
    by_cases hv : valueList data valueFields = []
    · simp [hv]
    · have hl : (valueList data valueFields).length ≠ 0 :=
        fun e => hv (List.length_eq_zero.mp e)
      simp [hv, hl, ratDivNat_eq_div, listSum_eq_sum]
  · simp only [aggregateValues, specAgg, hlen, if_false, if_true, ite_false, ite_true]
    norm_num
    cases hv : valueList data valueFields with
    | nil => rfl
    | cons x xs =>
        show JSNum.fin (xs.foldl ratMin x) = _
        rw [hmin]
        rfl
  · simp only [aggregateValues, specAgg, hlen, if_false, if_true, ite_false, ite_true]
    norm_num
    cases hv : valueList data valueFields with
    | nil => rfl
    | cons x xs =>
        show JSNum.fin (xs.foldl ratMax x) = _
        rw [hmax]
        rfl

/-- C5: on an empty record list the engine returns the result whose matrix
and header lists are all empty, for every configuration. -/
theorem C5_empty_records (config : PivotConfig) :
    createPivotTable [] config = ⟨[], [], []⟩ := rfl

/-- C4: the result is rectangular — the matrix has exactly
`rowHeaders.length` rows and every row has exactly `columnHeaders.length`
entries, for every record list and configuration. -/
theorem C4_rectangular (data : List PivotData) (config : PivotConfig) :
    (createPivotTable data config).data.length =
      (createPivotTable data config).rowHeaders.length ∧
    (createPivotTable data config).data.map List.length =
      List.replicate (createPivotTable data config).rowHeaders.length
        (createPivotTable data config).columnHeaders.length := by
  by_cases h : data = []
  · subst h
    exact ⟨rfl, rfl⟩
  · rw [createPivotTable_eq data config h]
    refine ⟨by simp, ?_⟩
    rw [List.map_map, List.eq_replicate_iff]
    refine ⟨by simp, ?_⟩
    intro b hb
    rw [List.mem_map] at hb
    obtain ⟨a, -, rfl⟩ := hb
    simp

/-- C3: the row and column header sequences are strictly sorted ascending in
lexicographic (string) order and contain no duplicates, for every record list
and configuration. -/
theorem C3_headers_strictly_sorted (data : List PivotData) (config : PivotConfig) :
    ((createPivotTable data config).rowHeaders.Pairwise (fun a b => strLt a b = true) ∧
      (createPivotTable data config).rowHeaders.Nodup) ∧
    ((createPivotTable data config).columnHeaders.Pairwise (fun a b => strLt a b = true) ∧
      (createPivotTable data config).columnHeaders.Nodup) := by
  by_cases h : data = []
  · subst h
    exact ⟨⟨List.Pairwise.nil, List.nodup_nil⟩, List.Pairwise.nil, List.nodup_nil⟩
  · rw [createPivotTable_eq data config h]
    exact ⟨⟨getUniqueValues_pairwise_lt _ _, getUniqueValues_nodup _ _⟩,
      getUniqueValues_pairwise_lt _ _, getUniqueValues_nodup _ _⟩

/-- C2: a cell whose filtered subset is empty — no input record has both the
cell's row group key and its column group key — is exactly `0`, for every
aggregation string whatsoever. -/
theorem C2_empty_subset_cell_is_zero (data : List PivotData) (config : PivotConfig)
    (i j : ℕ) (rh ch : String)
    (hrh : (createPivotTable data config).rowHeaders[i]? = some rh)
    (hch : (createPivotTable data config).columnHeaders[j]? = some ch)
    (hno : ∀ item ∈ data,
      ¬(groupKey item config.rows = rh ∧ groupKey item config.columns = ch)) :
    cellAt (createPivotTable data config) i j = some (.fin 0) := by
  by_cases hd : data = []
  · subst hd
    simp [createPivotTable_nil] at hrh
  · rw [createPivotTable_eq data config hd] at hrh hch ⊢
    dsimp only at hrh hch
    simp only [cellAt, List.getElem?_map, hrh, hch, Option.map_some', Option.some_bind]
    have hfil : data.filter (fun item =>
        matchesGroup item config.rows rh && matchesGroup item config.columns ch) = [] := by
      rw [List.filter_eq_nil_iff]
      intro a hmem
      intro hcontra
      rw [Bool.and_eq_true] at hcontra
      exact hno a hmem ⟨by simpa [matchesGroup] using hcontra.1,
        by simpa [matchesGroup] using hcontra.2⟩
    rw [hfil]
    rfl

/-- witness for C2 at the sparse example: cell (0, 1) pairs row key `A` with
column key `Y`, which no record matches. -/
theorem C2_witness :
    cellAt (createPivotTable exSparse (exConfig (some "avg"))) 0 1 = some (.fin 0) :=
  C2_empty_subset_cell_is_zero exSparse (exConfig (some "avg")) 0 1 "A" "Y"
    (by decide) (by decide) (by decide)

/-- C8: the engine is deterministic — two calls on equal record lists and
equal configurations return deeply equal matrices, row headers and column
headers (side-effect freedom is inherent: the embedding is a pure function of
its arguments). -/
theorem C8_deterministic (d₁ d₂ : List PivotData) (c₁ c₂ : PivotConfig)
    (hd : d₁ = d₂) (hc : c₁ = c₂) :
    (createPivotTable d₁ c₁).data = (createPivotTable d₂ c₂).data ∧
    (createPivotTable d₁ c₁).rowHeaders = (createPivotTable d₂ c₂).rowHeaders ∧
    (createPivotTable d₁ c₁).columnHeaders = (createPivotTable d₂ c₂).columnHeaders := by
  subst hd
  subst hc
  exact ⟨rfl, rfl, rfl⟩

/-- witness for C8 on the Example 1 records. -/
theorem C8_witness :
    (createPivotTable exRecords (exConfig (some "sum"))).data =
      (createPivotTable exRecords (exConfig (some "sum"))).data ∧
    (createPivotTable exRecords (exConfig (some "sum"))).rowHeaders =
      (createPivotTable exRecords (exConfig (some "sum"))).rowHeaders ∧
    (createPivotTable exRecords (exConfig (some "sum"))).columnHeaders =
      (createPivotTable exRecords (exConfig (some "sum"))).columnHeaders :=
  C8_deterministic exRecords exRecords (exConfig (some "sum")) (exConfig (some "sum")) rfl rfl

theorem intercalate_cons_cons (sep a b : String) (l : List String) :
    String.intercalate sep (a :: b :: l) = a ++ sep ++ String.intercalate sep (b :: l) := by
  show String.intercalate.go a sep (b :: l) = a ++ sep ++ String.intercalate.go b sep l
  induction l generalizing a b with
  | nil => rfl
  | cons c cs ih =>
      show String.intercalate.go (a ++ sep ++ b) sep (c :: cs) = _
      rw [ih (a ++ sep ++ b) c, ih b c]
      simp [String.append_assoc]

theorem jsJoin_eq_intercalate (sep : String) : ∀ l : List (Option Value),
    jsJoin sep l = String.intercalate sep (l.map joinElem)
  | [] => rfl
  | [x] => rfl
  | x :: y :: l => by
      have h1 : jsJoin sep (x :: y :: l) = joinElem x ++ sep ++ jsJoin sep (y :: l) := rfl
      rw [h1, jsJoin_eq_intercalate sep (y :: l), List.map_cons, List.map_cons,
        List.map_cons, intercalate_cons_cons]

/-- C6 fails as stated: JS `Array.prototype.join` stringifies an absent
(`undefined`) field to the EMPTY string, not to `"undefined"` — a record
lacking the single row field gets row key `""`. -/
theorem C6_counterexample :
    getField [("a", Value.str "x")] "b" = none ∧
    groupKey [("a", Value.str "x")] ["b"] = "" ∧
    groupKey [("a", Value.str "x")] ["b"] ≠ "undefined" := by decide

/-- C6 (amended): the group key is the concatenation of the string
representations of the record's values for the axis fields, in field order,
joined by the separator `" - "`, where a field absent from the record
contributes the EMPTY string (so a record lacking the single row field gets
row key `""`). -/
theorem C6_group_key_amended (item : PivotData) (fields : List String) :
    groupKey item fields =
      String.intercalate " - "
        (fields.map (fun field => (getField item field).elim "" valueToString)) ∧
    (∀ field, getField item field = none → groupKey item [field] = "") := by
  constructor
  · rw [groupKey, jsJoin_eq_intercalate, List.map_map]
    congr 1
    apply List.map_congr_left
    intro f _
    cases h : getField item f <;> simp [h, joinElem]
  · intro field h
    have e : groupKey item [field] = jsJoin " - " [getField item field] := rfl
    rw [e, h]
    rfl

/-- witness for C6 (amended) on a record lacking the requested field. -/
theorem C6_witness :
    (groupKey [("a", Value.str "x")] ["b"] =
      String.intercalate " - "
        ((["b"] : List String).map (fun field =>
          (getField [("a", Value.str "x")] field).elim "" valueToString))) ∧
    groupKey [("a", Value.str "x")] ["b"] = "" :=
  ⟨(C6_group_key_amended [("a", Value.str "x")] ["b"]).1,
   (C6_group_key_amended [("a", Value.str "x")] ["b"]).2 "b" (by decide)⟩

theorem aggregateValues_unknown_eq_sum (agg : String)
    (h1 : agg ≠ "sum") (h2 : agg ≠ "count") (h3 : agg ≠ "avg")
    (h4 : agg ≠ "min") (h5 : agg ≠ "max") (data : List PivotData)
    (valueFields : List String) :
    aggregateValues data valueFields agg = aggregateValues data valueFields "sum" := by
  unfold aggregateValues
  by_cases hd : data.length = 0
  · rw [if_pos hd, if_pos hd]
  · rw [if_neg hd, if_neg hd]
    rw [if_neg h1, if_neg h2, if_neg h3, if_neg h4, if_neg h5, if_pos rfl]

/-- C9: an aggregation string that is none of the five enumerated kinds falls
through the `switch` to its `default` branch, which is the sum reduction, so
the whole result equals the result with aggregation `"sum"`. -/
theorem C9_unknown_aggregation_behaves_as_sum (data : List PivotData) (config : PivotConfig)
    (agg : String) (ha : config.aggregation = some agg)
    (hne : agg ∉ (["sum", "count", "avg", "min", "max"] : List String)) :
    createPivotTable data config =
      createPivotTable data
        (PivotConfig.mk config.rows config.columns config.values (some "sum")) := by
  simp only [List.mem_cons, List.not_mem_nil, or_false, not_or] at hne
  obtain ⟨h1, h2, h3, h4, h5⟩ := hne
  by_cases hd : data = []
  · subst hd
    rfl
  · rw [createPivotTable_eq data config hd, createPivotTable_eq _ _ hd]
    simp only [ha, Option.getD_some]
    congr 1
    apply List.map_congr_left
    intro rh _
    apply List.map_congr_left
    intro ch _
    exact aggregateValues_unknown_eq_sum agg h1 h2 h3 h4 h5 _ _

/-- witness for C9 with the unrecognized aggregation string `"median"`. -/
theorem C9_witness :
    createPivotTable exRecords (exConfig (some "median")) =
      createPivotTable exRecords
        (PivotConfig.mk (exConfig (some "median")).rows (exConfig (some "median")).columns
          (exConfig (some "median")).values (some "sum")) :=
  C9_unknown_aggregation_behaves_as_sum exRecords (exConfig (some "median")) "median"
    rfl (by decide)

/-- C1 fails as stated at a cell whose filtered subset is empty: with
aggregation `avg`, the code's empty-subset short-circuit yields `0`, while
the claimed reduction — sum divided by count — is the NaN of the `0 / 0`
float division. -/
theorem C1_counterexample :
    (createPivotTable exSparse (exConfig (some "avg"))).rowHeaders[0]? = some "A" ∧
    (createPivotTable exSparse (exConfig (some "avg"))).columnHeaders[1]? = some "Y" ∧
    cellAt (createPivotTable exSparse (exConfig (some "avg"))) 0 1 = some (JSNum.fin 0) ∧
    specAgg ((exConfig (some "avg")).aggregation.getD "sum")
        (specValueList exSparse (exConfig (some "avg")) "A" "Y") = JSNum.nan ∧
    cellAt (createPivotTable exSparse (exConfig (some "avg"))) 0 1 ≠
      some (specAgg ((exConfig (some "avg")).aggregation.getD "sum")
        (specValueList exSparse (exConfig (some "avg")) "A" "Y")) := by decide

/-- C1 (amended): for a non-empty record list, non-empty `rows`, `columns`
and `values` field lists, and an aggregation among the five enumerated kinds,
every cell `matrix[i][j]` whose filtered subset is NON-EMPTY equals the
configured reduction of the value list built from the records matching
`rowHeaders[i]` and `columnHeaders[j]` (record-major, field-minor numeric
coercion); empty-subset cells are instead exactly `0` (claim C2). -/
theorem C1_cell_formula_amended (data : List PivotData) (config : PivotConfig)
    (i j : ℕ) (rh ch : String)
    (hrows : config.rows ≠ []) (hcols : config.columns ≠ [])
    (hvals : config.values ≠ []) (hdata : data ≠ [])
    (hagg : config.aggregation.getD "sum" ∈
      (["sum", "count", "avg", "min", "max"] : List String))
    (hrh : (createPivotTable data config).rowHeaders[i]? = some rh)
    (hch : (createPivotTable data config).columnHeaders[j]? = some ch)
    (hsub : data.filter (fun item =>
        matchesGroup item config.rows rh && matchesGroup item config.columns ch) ≠ []) :
    cellAt (createPivotTable data config) i j =
      some (specAgg (config.aggregation.getD "sum") (specValueList data config rh ch)) := by
  rw [createPivotTable_eq data config hdata] at hrh hch ⊢
  dsimp only at hrh hch
  simp only [cellAt, List.getElem?_map, hrh, hch, Option.map_some', Option.some_bind]
  rw [aggregateValues_eq_specAgg _ _ _ hsub hagg]
  rfl

/-- witness for C1 (amended) at cell (0, 0) of Example 1 under `avg`. -/
theorem C1_witness :
    cellAt (createPivotTable exRecords (exConfig (some "avg"))) 0 0 =
      some (specAgg ((exConfig (some "avg")).aggregation.getD "sum")
        (specValueList exRecords (exConfig (some "avg")) "A" "X")) :=
  C1_cell_formula_amended exRecords (exConfig (some "avg")) 0 0 "A" "X"
    (by decide) (by decide) (by decide) (by decide) (by decide)
    (by decide) (by decide) (by decide)

theorem dedup_map_const (data : List PivotData) (hd : data ≠ []) :
    (data.map (fun _ => "")).dedup = [""] := by
  induction data with
  | nil => exact absurd rfl hd
  | cons x t ih =>
      cases t with
      | nil => rfl
      | cons y s =>
          rw [List.map_cons, List.dedup_cons_of_mem
            (List.mem_map_of_mem (fun _ => "") (List.mem_cons_self y s))]
          exact ih (List.cons_ne_nil y s)

theorem getUniqueValues_nil_fields (data : List PivotData) (hd : data ≠ []) :
    getUniqueValues data [] = [""] := by
  unfold getUniqueValues
  have hkey : data.map (fun item => groupKey item []) = data.map (fun _ => "") :=
    List.map_congr_left (fun a _ => rfl)
  rw [hkey, dedup_map_const data hd]
  rfl

/-- C10: with non-empty records and an empty `rows` field list, every
record's row key is the empty string, so `rowHeaders = [""]` and the single
matrix row holds, for each column group, the aggregate over all records
matching that column key alone; symmetrically, an empty `columns` field list
yields `columnHeaders = [""]` and one aggregate column per row group. -/
theorem C10_empty_axis_degenerates (data : List PivotData) (config : PivotConfig)
    (hdata : data ≠ []) :
    (config.rows = [] →
      (createPivotTable data config).rowHeaders = [""] ∧
      (createPivotTable data config).data =
        [(getUniqueValues data config.columns).map (fun ch =>
          aggregateValues (data.filter (fun item => matchesGroup item config.columns ch))
            config.values (config.aggregation.getD "sum"))]) ∧
    (config.columns = [] →
      (createPivotTable data config).columnHeaders = [""] ∧
      (createPivotTable data config).data =
        (getUniqueValues data config.rows).map (fun rh =>
          [aggregateValues (data.filter (fun item => matchesGroup item config.rows rh))
            config.values (config.aggregation.getD "sum")])) := by
  rw [createPivotTable_eq data config hdata]
  dsimp only
  constructor
  · intro hrows
    rw [hrows, getUniqueValues_nil_fields data hdata]
    exact ⟨rfl, rfl⟩
  · intro hcols
    rw [hcols, getUniqueValues_nil_fields data hdata]
    refine ⟨rfl, ?_⟩
    apply List.map_congr_left
    intro rh _
    rw [List.map_cons, List.map_nil]
    congr 1
    congr 1
    apply List.filter_congr
    intro item _
    rw [show matchesGroup item [] "" = true from rfl, Bool.and_true]

/-- witness for C10 on a configuration whose two axis field lists are both
empty. -/
theorem C10_witness :
    ((createPivotTable exRecords (PivotConfig.mk [] [] ["b"] (some "sum"))).rowHeaders =
        [""] ∧
      (createPivotTable exRecords (PivotConfig.mk [] [] ["b"] (some "sum"))).data =
        [(getUniqueValues exRecords (PivotConfig.mk [] [] ["b"] (some "sum")).columns).map
          (fun ch => aggregateValues
            (exRecords.filter (fun item =>
              matchesGroup item (PivotConfig.mk [] [] ["b"] (some "sum")).columns ch))
            (PivotConfig.mk [] [] ["b"] (some "sum")).values
            ((PivotConfig.mk [] [] ["b"] (some "sum")).aggregation.getD "sum"))]) ∧
    ((createPivotTable exRecords (PivotConfig.mk [] [] ["b"] (some "sum"))).columnHeaders =
        [""] ∧
      (createPivotTable exRecords (PivotConfig.mk [] [] ["b"] (some "sum"))).data =
        (getUniqueValues exRecords (PivotConfig.mk [] [] ["b"] (some "sum")).rows).map
          (fun rh => [aggregateValues
            (exRecords.filter (fun item =>
              matchesGroup item (PivotConfig.mk [] [] ["b"] (some "sum")).rows rh))
            (PivotConfig.mk [] [] ["b"] (some "sum")).values
            ((PivotConfig.mk [] [] ["b"] (some "sum")).aggregation.getD "sum")])) :=
  ⟨(C10_empty_axis_degenerates exRecords (PivotConfig.mk [] [] ["b"] (some "sum"))
      (by decide)).1 rfl,
   (C10_empty_axis_degenerates exRecords (PivotConfig.mk [] [] ["b"] (some "sum"))
      (by decide)).2 rfl⟩

theorem sum_ite_key_not_mem {α : Type} [DecidableEq α] (a : α) :
    ∀ keys : List α, a ∉ keys →
      (keys.map (fun k => if a = k then 1 else 0)).sum = 0
  | [], _ => rfl
  | k :: t, h => by
      rw [List.map_cons, List.sum_cons,
        if_neg (fun e => h (List.mem_cons.mpr (Or.inl e))),
        sum_ite_key_not_mem a t (fun ht => h (List.mem_cons_of_mem k ht))]

theorem sum_ite_key_mem {α : Type} [DecidableEq α] (a : α) :
    ∀ keys : List α, keys.Nodup → a ∈ keys →
      (keys.map (fun k => if a = k then 1 else 0)).sum = 1
  | [], _, hm => absurd hm (List.not_mem_nil a)
  | k :: t, hnd, hm => by
      obtain ⟨hk, ht⟩ := List.nodup_cons.mp hnd
      rw [List.map_cons, List.sum_cons]
      by_cases he : a = k
      · subst he
        rw [if_pos rfl, sum_ite_key_not_mem a t hk]
      · rw [if_neg he,
          sum_ite_key_mem a t ht ((List.mem_cons.mp hm).resolve_left he)]

theorem sum_filter_cons_aux {α : Type} [DecidableEq α] (key : PivotData → α)
    (x : PivotData) (t : List PivotData) :
    ∀ keys : List α,
      (keys.map (fun k => (List.filter (fun y => key y == k) (x :: t)).length)).sum =
        (keys.map (fun k => if key x = k then 1 else 0)).sum +
        (keys.map (fun k => (List.filter (fun y => key y == k) t).length)).sum
  | [] => rfl
  | k :: ks => by
      rw [List.map_cons, List.sum_cons, List.map_cons, List.sum_cons,
        List.map_cons, List.sum_cons, sum_filter_cons_aux key x t ks,
        List.filter_cons]
      by_cases he : key x = k
      · rw [if_pos (by simp [he]), if_pos he, List.length_cons]
        omega
      · rw [if_neg (by simp [he]), if_neg he]
        omega

theorem sum_length_filter_key {α : Type} [DecidableEq α] (key : PivotData → α) :
    ∀ (l : List PivotData) (keys : List α), keys.Nodup → (∀ x ∈ l, key x ∈ keys) →
      (keys.map (fun k => (l.filter (fun x => key x == k)).length)).sum = l.length
  | [], keys, _, _ => by simp
  | x :: t, keys, hnd, hmem => by
      rw [sum_filter_cons_aux key x t keys,
        sum_ite_key_mem (key x) keys hnd (hmem x (List.mem_cons_self x t)),
        sum_length_filter_key key t keys hnd
          (fun y hy => hmem y (List.mem_cons_of_mem x hy)),
        List.length_cons]
      omega

theorem sum_map_mul_right_nat {α : Type} (l : List α) (f : α → ℕ) (v : ℕ) :
    (l.map (fun x => f x * v)).sum = (l.map f).sum * v := by
  induction l with
  | nil => simp
  | cons x t ih =>
      rw [List.map_cons, List.sum_cons, List.map_cons, List.sum_cons, ih,
        Nat.add_mul]

theorem total_count_nat (data : List PivotData) (rows cols : List String) (v : ℕ) :
    ((getUniqueValues data rows).map (fun rh =>
      ((getUniqueValues data cols).map (fun ch =>
        (data.filter (fun item =>
          matchesGroup item rows rh && matchesGroup item cols ch)).length * v)).sum)).sum =
    data.length * v := by
  have hinner : ∀ rh, ((getUniqueValues data cols).map (fun ch =>
      (data.filter (fun item =>
        matchesGroup item rows rh && matchesGroup item cols ch)).length * v)).sum =
      (data.filter (fun item => matchesGroup item rows rh)).length * v := by
    intro rh
    rw [sum_map_mul_right_nat]
    congr 1
    have hsplit : ∀ ch : String, data.filter (fun item =>
        matchesGroup item rows rh && matchesGroup item cols ch) =
        (data.filter (fun item => matchesGroup item rows rh)).filter
          (fun x => groupKey x cols == ch) := by
      intro ch
      rw [List.filter_filter]
      apply List.filter_congr
      intro a _
      rw [Bool.and_comm]
      rfl
    rw [List.map_congr_left (fun (ch : String) _ => by rw [hsplit ch])]
    exact sum_length_filter_key (fun x => groupKey x cols) _ _
      (getUniqueValues_nodup data cols)
      (fun x hx => mem_getUniqueValues cols (List.mem_of_mem_filter hx))
  rw [List.map_congr_left (fun rh _ => hinner rh), sum_map_mul_right_nat]
  congr 1
  exact sum_length_filter_key (fun x => groupKey x rows) data _
    (getUniqueValues_nodup data rows)
    (fun x hx => mem_getUniqueValues rows hx)

theorem length_valueList (subset : List PivotData) (valueFields : List String) :
    (valueList subset valueFields).length = subset.length * valueFields.length := by
  rw [valueList, List.length_flatMap]
  have h : List.map (List.length ∘ fun item =>
      valueFields.map (fun field => toNumber (getField item field))) subset =
      List.map (fun _ => valueFields.length) subset :=
    List.map_congr_left (fun a _ => by simp)
  rw [h, List.map_const', List.sum_replicate, smul_eq_mul]

theorem aggregateValues_count (subset : List PivotData) (valueFields : List String) :
    aggregateValues subset valueFields "count" =
      JSNum.fin ((subset.length * valueFields.length : ℕ) : ℚ) := by
  by_cases hd : subset.length = 0
  · have e : aggregateValues subset valueFields "count" = JSNum.fin 0 := by
      unfold aggregateValues
      rw [if_pos hd]
    rw [e, hd]
    norm_num
  · have e : aggregateValues subset valueFields "count" =
        JSNum.fin (ratOfNat (valueList subset valueFields).length) := by
      unfold aggregateValues
      rw [if_neg hd]
      rfl
    rw [e, ratOfNat_eq_cast, length_valueList]

theorem foldl_add_fin (l : List ℕ) :
    ∀ q : ℚ, List.foldl JSNum.add (JSNum.fin q) (l.map (fun n : ℕ => JSNum.fin (n : ℚ))) =
      JSNum.fin (q + ((l.sum : ℕ) : ℚ)) := by
  induction l with
  | nil => intro q; simp
  | cons n t ih =>
      intro q
      rw [List.map_cons, List.foldl_cons]
      show List.foldl JSNum.add (JSNum.fin (ratAdd q (n : ℚ))) _ = _
      rw [ih (ratAdd q (n : ℚ)), ratAdd_eq_add]
      congr 1
      rw [List.sum_cons]
      push_cast
      ring

theorem jsNumListSum_map_fin (l : List ℕ) :
    jsNumListSum (l.map (fun n : ℕ => JSNum.fin (n : ℚ))) = JSNum.fin ((l.sum : ℕ) : ℚ) := by
  show List.foldl JSNum.add (JSNum.fin 0) (l.map (fun n : ℕ => JSNum.fin (n : ℚ))) = _
  rw [foldl_add_fin l 0]
  norm_num

/-- C7: with aggregation `count` (and non-empty `rows`, `columns`, `values`
field lists) the sum of `matrix[i][j]` over all cells equals
`records.length × values.length`: every record falls in exactly one
(row group, column group) cell. -/
theorem C7_count_total (data : List PivotData) (config : PivotConfig)
    (hr : config.rows ≠ []) (hc : config.columns ≠ []) (hv : config.values ≠ [])
    (ha : config.aggregation = some "count") :
    jsNumListSum (createPivotTable data config).data.flatten =
      JSNum.fin ((data.length * config.values.length : ℕ) : ℚ) := by
  by_cases hd : data = []
  · subst hd
    show JSNum.fin 0 = _
    norm_num
  · rw [createPivotTable_eq data config hd]
    dsimp only
    simp only [ha, Option.getD_some]
    have hrow : ∀ rh, (getUniqueValues data config.columns).map (fun ch =>
        aggregateValues (data.filter (fun item =>
          matchesGroup item config.rows rh && matchesGroup item config.columns ch))
          config.values "count") =
        List.map (fun n : ℕ => JSNum.fin (n : ℚ))
          ((getUniqueValues data config.columns).map (fun ch =>
            (data.filter (fun item =>
              matchesGroup item config.rows rh && matchesGroup item config.columns ch)).length *
              config.values.length)) := by
      intro rh
      rw [List.map_map]
      exact List.map_congr_left (fun ch _ => aggregateValues_count _ _)
    have hcell : (getUniqueValues data config.rows).map (fun rh =>
        (getUniqueValues data config.columns).map (fun ch =>
          aggregateValues (data.filter (fun item =>
            matchesGroup item config.rows rh && matchesGroup item config.columns ch))
            config.values "count")) =
        List.map (List.map (fun n : ℕ => JSNum.fin (n : ℚ)))
          ((getUniqueValues data config.rows).map (fun rh =>
            (getUniqueValues data config.columns).map (fun ch =>
              (data.filter (fun item =>
                matchesGroup item config.rows rh && matchesGroup item config.columns ch)).length *
                config.values.length))) := by
      rw [List.map_map]
      exact List.map_congr_left (fun rh _ => hrow rh)
    rw [hcell, ← List.map_flatten, jsNumListSum_map_fin]
    have hnat : ((getUniqueValues data config.rows).map (fun rh =>
        (getUniqueValues data config.columns).map (fun ch =>
          (data.filter (fun item =>
            matchesGroup item config.rows rh && matchesGroup item config.columns ch)).length *
            config.values.length))).flatten.sum =
        data.length * config.values.length := by
      rw [List.sum_flatten, List.map_map]
      exact total_count_nat data config.rows config.columns config.values.length
    rw [hnat]

/-- witness for C7 on the Example 1 records under `count`: the cell counts
`1 + 1 + 1 + 0` sum to `3 × 1`. -/
theorem C7_witness :
    jsNumListSum (createPivotTable exRecords (exConfig (some "count"))).data.flatten =
      JSNum.fin ((exRecords.length * (exConfig (some "count")).values.length : ℕ) : ℚ) :=
  C7_count_total exRecords (exConfig (some "count")) (by decide) (by decide) (by decide) rfl
